import Mathlib

/-!
# Verification of the MCP Scheduler core (`mcp_scheduler`)

Shallow embedding of the scheduling engine of the `scheduler-mcp`
repository: the task data model (`task.py`), the executor dispatch
(`executor.py`), and the scheduler operations (`scheduler.py`) over the
SQLite store (`persistence.py`).

Conventions of the embedding:
* UTC timestamps are natural numbers counting whole minutes since the
  Unix epoch (1970-01-01 00:00 UTC, a Thursday); that is the granularity
  cron works at.
* The SQLite database is a list of tasks plus an append-only list of
  execution records; `INSERT OR REPLACE` keyed by the primary key `id`
  becomes an upsert on the list.
* `asyncio` side effects (subprocess runs, HTTP calls, the OpenAI call)
  are oracle inputs: each call site takes the call's outcome as an
  explicit argument.
* Python exceptions become `Except` values or explicit outcome
  constructors.
-/

namespace McpScheduler

/-- Status of a scheduled task: `TaskStatus` from `task.py`. -/
inductive TaskStatus where
  | pending
  | running
  | completed
  | failed
  | disabled
deriving DecidableEq, Repr

/-- Type of a scheduled task: `TaskType` from `task.py`. -/
inductive TaskType where
  | shell_command
  | api_call
  | ai
  | reminder
deriving DecidableEq, Repr

/-- The `.value` string of a `TaskType` member, as the executor branches on it. -/
def TaskType.value : TaskType → String
  | .shell_command => "shell_command"
  | .api_call => "api_call"
  | .ai => "ai"
  | .reminder => "reminder"

/-- Modelled from the spec: the cron resolver (`CronResolver` in the spec)
is the external `croniter` library, whose code is not part of this
repository.  The spec requires standard 5-field cron syntax
(minute, hour, day-of-month, month, day-of-week); a field here is either
a wildcard or a single numeric value. -/
inductive CronField where
  | star
  | num (n : Nat)
deriving DecidableEq, Repr

/-- A parsed 5-field cron expression. -/
structure CronExpr where
  minute : CronField
  hour : CronField
  dom : CronField
  month : CronField
  dow : CronField
deriving DecidableEq, Repr

/-- Split a character list on spaces, dropping empty pieces (the
whitespace tokenisation cron expressions get). -/
def splitFieldsAux : List Char → List Char → List (List Char)
  | [], acc => if acc.isEmpty then [] else [acc.reverse]
  | c :: cs, acc =>
    if c = ' ' then
      if acc.isEmpty then splitFieldsAux cs []
      else acc.reverse :: splitFieldsAux cs []
    else splitFieldsAux cs (c :: acc)

/-- The whitespace-separated fields of a schedule string. -/
def cronFields (s : String) : List (List Char) :=
  splitFieldsAux s.data []

/-- Parse a decimal numeral. -/
def parseNatAux : List Char → Nat → Option Nat
  | [], acc => some acc
  | c :: cs, acc =>
    if c.isDigit then parseNatAux cs (acc * 10 + (c.toNat - 48)) else none

/-- Parse a non-empty decimal numeral. -/
def parseNat? (cs : List Char) : Option Nat :=
  if cs.isEmpty then none else parseNatAux cs 0

/-- Parse one cron field, checking the numeric range for its position. -/
def parseCronField (lo hi : Nat) (cs : List Char) : Option CronField :=
  if cs = ['*'] then some CronField.star
  else
    match parseNat? cs with
    | some n => if lo ≤ n ∧ n ≤ hi then some (CronField.num n) else none
    | none => none

/-- Parse a 5-field cron expression (minute 0-59, hour 0-23,
day-of-month 1-31, month 1-12, day-of-week 0-6). -/
def parseCron (s : String) : Option CronExpr :=
  match cronFields s with
  | [mi, h, d, mo, w] =>
    match parseCronField 0 59 mi, parseCronField 0 23 h, parseCronField 1 31 d,
        parseCronField 1 12 mo, parseCronField 0 6 w with
    | some mi, some h, some d, some mo, some w =>
      some { minute := mi, hour := h, dom := d, month := mo, dow := w }
    | _, _, _, _, _ => none
  | _ => none

/-- Civil date (year, month, day) from a count of days since the Unix
epoch, for the proleptic Gregorian calendar. -/
def civilFromDays (z0 : Nat) : Nat × Nat × Nat :=
  let z := z0 + 719468
  let era := z / 146097
  let doe := z % 146097
  let yoe := (doe - doe / 1460 + doe / 36524 - doe / 146096) / 365
  let y := yoe + era * 400
  let doy := doe - (365 * yoe + yoe / 4 - yoe / 100)
  let mp := (5 * doy + 2) / 153
  let d := doy - (153 * mp + 2) / 5 + 1
  let m := if mp < 10 then mp + 3 else mp - 9
  (if m ≤ 2 then y + 1 else y, m, d)

/-- Does a single cron field accept a value? -/
def CronField.matches : CronField → Nat → Bool
  | .star, _ => true
  | .num n, v => n = v

/-- Does a cron expression fire at minute `t` (minutes since epoch)?
Standard cron semantics: minute, hour and month must all match; when both
day-of-month and day-of-week are restricted, either one matching
suffices, otherwise both (trivially, for the wildcard one) must match. -/
def cronMatches (c : CronExpr) (t : Nat) : Bool :=
  let days := t / 1440
  let cal := civilFromDays days
  let domOk := c.dom.matches cal.2.2
  let dowOk := c.dow.matches ((days + 4) % 7)
  c.minute.matches (t % 60) && c.hour.matches (t / 60 % 24) &&
    c.month.matches cal.2.1 &&
    (if c.dom ≠ CronField.star ∧ c.dow ≠ CronField.star then domOk || dowOk
     else domOk && dowOk)

/-- Search for the first minute strictly after `t` at which `c` fires,
trying at most `fuel` minutes. -/
def findNext (c : CronExpr) : Nat → Nat → Option Nat
  | 0, _ => none
  | fuel + 1, t => if cronMatches c (t + 1) then some (t + 1) else findNext c fuel (t + 1)

/-- One year plus one day of minutes: enough fuel to reach any occurrence
of a satisfiable 5-field cron expression. -/
def cronSearchFuel : Nat := 527040

/-- Modelled from the spec: `next_trigger(schedule, reference_time)`,
the contract of the external `croniter` usage
(`croniter.croniter(schedule, now).get_next(datetime)`): the next
occurrence strictly after the reference time, failing if the expression
cannot be parsed or yields no future occurrence. -/
def nextTrigger (schedule : String) (t : Nat) : Except String Nat :=
  match parseCron schedule with
  | none => Except.error ("bad cron: " ++ schedule)
  | some c =>
    match findNext c cronSearchFuel t with
    | none => Except.error ("no future occurrence: " ++ schedule)
    | some ts => Except.ok ts

/-- The `Task` pydantic model from `task.py`.  `api_headers` and
`api_body` are kept as their serialized forms (as `persistence.py` stores
them). -/
structure Task where
  id : String
  name : String
  schedule : String
  type : TaskType
  command : Option String
  api_url : Option String
  api_method : Option String
  api_headers : Option (List (String × String))
  api_body : Option String
  prompt : Option String
  description : Option String
  enabled : Bool
  do_only_once : Bool
  last_run : Option Nat
  next_run : Option Nat
  status : TaskStatus
  created_at : Nat
  updated_at : Nat
  reminder_title : Option String
  reminder_message : Option String
deriving DecidableEq, Repr

/-- Constructing a `Task` giving only the fields that have no pydantic
default: every other field takes its declared default from `task.py`
(`enabled=True`, `do_only_once=True`, `status=PENDING`, `last_run` and
`next_run` unset).  The generated id and the two `utcnow` timestamps are
oracle inputs. -/
def Task.make (freshId : String) (name schedule : String) (type : TaskType)
    (command api_url api_method : Option String)
    (api_headers : Option (List (String × String))) (api_body : Option String)
    (prompt description reminder_title reminder_message : Option String)
    (now : Nat) : Task :=
  { id := freshId
    name := name
    schedule := schedule
    type := type
    command := command
    api_url := api_url
    api_method := api_method
    api_headers := api_headers
    api_body := api_body
    prompt := prompt
    description := description
    enabled := true
    do_only_once := true
    last_run := none
    next_run := none
    status := TaskStatus.pending
    created_at := now
    updated_at := now
    reminder_title := reminder_title
    reminder_message := reminder_message }

/-- The `TaskExecution` pydantic model from `task.py`. -/
structure TaskExecution where
  id : String
  task_id : String
  start_time : Nat
  end_time : Option Nat
  status : TaskStatus
  output : Option String
  error : Option String
deriving DecidableEq, Repr

/-- A fresh `TaskExecution(task_id=...)` with the model defaults from
`task.py`: no end time, `status=RUNNING`, no output, no error. -/
def TaskExecution.make (freshId taskId : String) (now : Nat) : TaskExecution :=
  { id := freshId
    task_id := taskId
    start_time := now
    end_time := none
    status := TaskStatus.running
    output := none
    error := none }

/-- Outcome of one awaited helper call inside `Executor.execute_task`
(`_execute_shell_command`, `_execute_api_call`, `_execute_ai_task`,
`_execute_reminder_task`): either the `(output, error)` pair those
helpers return, or a raised exception carrying its message. -/
inductive CallResult where
  | ret (output error : Option String)
  | raised (msg : String)
deriving DecidableEq, Repr

/-- Oracle giving the outcome of each helper the executor may await. -/
structure ExecEnv where
  shellResult : CallResult
  apiResult : CallResult
  aiResult : CallResult
  reminderResult : CallResult
deriving Repr

/-- Python truthiness of the `error` value in `if error:`. -/
def errTruthy : Option String → Bool
  | none => false
  | some s => s ≠ ""

/-- Fold one helper outcome into the execution record, as each branch of
`Executor.execute_task` does: a raised exception falls to the
`except Exception` clause (`status=FAILED`, `error=str(e)`); otherwise a
truthy `error` gives `status=FAILED` with that error, and a falsy one
gives `status=COMPLETED` with the output. -/
def applyCallResult (e : TaskExecution) : CallResult → TaskExecution
  | .raised msg => { e with status := TaskStatus.failed, error := some msg }
  | .ret output error =>
    if errTruthy error then { e with status := TaskStatus.failed, error := error }
    else { e with status := TaskStatus.completed, output := output }

/-- Embedding of `Executor.execute_task` from `executor.py`, with the dispatch done on
the task type's `.value` string exactly as the source compares it.  The
start and end `utcnow` calls are oracle inputs; `end_time` is set once,
after the `try`/`except`, on every path. -/
def executeTaskCore (typeValue : String) (env : ExecEnv)
    (freshId taskId : String) (startNow endNow : Nat) : TaskExecution :=
  let e0 := TaskExecution.make freshId taskId startNow
  let e1 :=
    if typeValue = "shell_command" then applyCallResult e0 env.shellResult
    else if typeValue = "api_call" then applyCallResult e0 env.apiResult
    else if typeValue = "ai" then applyCallResult e0 env.aiResult
    else if typeValue = "reminder" then applyCallResult e0 env.reminderResult
    else { e0 with status := TaskStatus.failed,
                   error := some ("Unsupported task type: " ++ typeValue) }
  { e1 with end_time := some endNow }

/-- The executor entry point `Executor.execute_task` applied to a `Task`. -/
def executeTask (task : Task) (env : ExecEnv) (freshId : String)
    (startNow endNow : Nat) : TaskExecution :=
  executeTaskCore task.type.value env freshId task.id startNow endNow

/-- Embedding of `Database.save_task` from `persistence.py`: `INSERT OR REPLACE`
keyed by the primary key `id` — replace the row with this id if present,
insert otherwise. -/
def saveTask (tasks : List Task) (t : Task) : List Task :=
  if tasks.any (fun u => u.id = t.id) then
    tasks.map (fun u => if u.id = t.id then t else u)
  else tasks ++ [t]

/-- Embedding of `Database.get_task`: the row with this id, if any. -/
def getTask (tasks : List Task) (taskId : String) : Option Task :=
  tasks.find? (fun u => u.id = taskId)

/-- The scheduler's state: the database contents (`tasks` and the
append-only `executions` log), the `_running_tasks` in-flight set (its
keys), and the `active` flag. -/
structure SchedState where
  tasks : List Task
  executions : List TaskExecution
  runningTasks : List String
  active : Bool
deriving DecidableEq, Repr

/-- One iteration of the `for task in tasks` loop in
`Scheduler._check_tasks`, threading the state and collecting the tasks
handed to `asyncio.create_task(self._execute_task(task))`.  Disabled
tasks and tasks already in `_running_tasks` are skipped; a task without a
`next_run` gets one computed and saved (an invalid cron expression is
logged and the task skipped); a task whose `next_run` is due
(`next_run <= now`) is dispatched and its id inserted into
`_running_tasks`. -/
def checkTasksStep (now : Nat) (acc : SchedState × List Task) (task : Task) :
    SchedState × List Task :=
  let st := acc.1
  let dispatched := acc.2
  if task.enabled = false then acc
  else if task.id ∈ st.runningTasks then acc
  else
    let computed : Option (SchedState × Task) :=
      match task.next_run with
      | some _ => some (st, task)
      | none =>
        match nextTrigger task.schedule now with
        | .error _ => none
        | .ok nr =>
          let task' := { task with next_run := some nr }
          some ({ st with tasks := saveTask st.tasks task' }, task')
    match computed with
    | none => acc
    | some (st', task') =>
      match task'.next_run with
      | some nr =>
        if nr ≤ now then
          ({ st' with runningTasks := st'.runningTasks ++ [task'.id] },
           dispatched ++ [task'])
        else (st', dispatched)
      | none => (st', dispatched)

/-- Embedding of `Scheduler._check_tasks`: one poll cycle over the
`get_all_tasks()` snapshot. -/
def checkTasks (st : SchedState) (now : Nat) : SchedState × List Task :=
  st.tasks.foldl (checkTasksStep now) (st, [])

/-- The head of `Scheduler._execute_task` (and the pre-dispatch part of
`run_task_now`), up to the executor await: mark the task `RUNNING`,
record `last_run = utcnow()`, and persist that intermediate state. -/
def markRunning (st : SchedState) (task : Task) (now : Nat) : SchedState × Task :=
  let task' := { task with status := TaskStatus.running, last_run := some now }
  ({ st with tasks := saveTask st.tasks task' }, task')

/-- The completion bookkeeping of `Scheduler._execute_task` after the
executor returned: persist the execution; if `do_only_once` and the
execution completed, disable the task (`enabled=False`,
`status=DISABLED`); otherwise recompute `next_run` from the schedule
relative to the completion time `now` and set the task's status to the
execution's outcome.  A raised exception there (the recompute failing)
runs the `except Exception` clause: mark the task `FAILED` and append a
failure execution record (with the oracle id `errExecId`).  The
`finally` clause always removes the task id from `_running_tasks`. -/
def executeTaskFinish (st : SchedState) (task : Task) (execution : TaskExecution)
    (now : Nat) (errExecId : String) : SchedState :=
  let st1 := { st with executions := st.executions ++ [execution] }
  let st2 :=
    if task.do_only_once = true ∧ execution.status = TaskStatus.completed then
      let task' := { task with enabled := false, status := TaskStatus.disabled }
      { st1 with tasks := saveTask st1.tasks task' }
    else
      match nextTrigger task.schedule now with
      | .ok nr =>
        let task' := { task with next_run := some nr, status := execution.status }
        { st1 with tasks := saveTask st1.tasks task' }
      | .error e =>
        let task' := { task with status := TaskStatus.failed }
        let stf := { st1 with tasks := saveTask st1.tasks task' }
        { stf with executions := stf.executions ++
            [{ id := errExecId, task_id := task.id,
               start_time := task.last_run.getD now, end_time := some now,
               status := TaskStatus.failed, error := some e, output := none }] }
  { st2 with runningTasks := st2.runningTasks.filter (fun i => i ≠ task.id) }

/-- Embedding of `Scheduler.add_task`: validate the schedule by computing the initial
`next_run` (an unparsable expression raises `ValueError` before anything
is saved), then persist the task. -/
def addTask (st : SchedState) (task : Task) (now : Nat) :
    Except String Task × SchedState :=
  match nextTrigger task.schedule now with
  | .error e => (Except.error ("Invalid cron expression: " ++ e), st)
  | .ok nr =>
    let task' := { task with next_run := some nr }
    (Except.ok task', { st with tasks := saveTask st.tasks task' })

/-- The part of `Scheduler.run_task_now` before its executor await:
return `None` for an unknown id or an id already in `_running_tasks`
(section guarded by the warning log); otherwise mark the task running and
persist it.  Note the id is not inserted into `_running_tasks`. -/
def runTaskNowBegin (st : SchedState) (taskId : String) (now : Nat) :
    Option Task × SchedState :=
  match getTask st.tasks taskId with
  | none => (none, st)
  | some task =>
    if taskId ∈ st.runningTasks then (none, st)
    else
      let r := markRunning st task now
      (some r.2, r.1)

/-- The part of `Scheduler.run_task_now` after the executor returned:
persist the execution; disable a `do_only_once` task that completed,
otherwise copy the execution's status onto the task; persist and return
the execution. -/
def runTaskNowFinish (st : SchedState) (task : Task) (execution : TaskExecution) :
    TaskExecution × SchedState :=
  let st1 := { st with executions := st.executions ++ [execution] }
  let task' :=
    if task.do_only_once = true ∧ execution.status = TaskStatus.completed then
      { task with enabled := false, status := TaskStatus.disabled }
    else
      { task with status := execution.status }
  (execution, { st1 with tasks := saveTask st1.tasks task' })

/-- Effect on the scheduler state of cancelling one in-flight
`_execute_task`: `asyncio.CancelledError` is a `BaseException`, so the
`except Exception` clause does not run — no status write and no failure
record — and only the `finally` clause runs, deleting the id from
`_running_tasks`. -/
def cancelRunning (st : SchedState) (taskId : String) : SchedState :=
  { st with runningTasks := st.runningTasks.filter (fun i => i ≠ taskId) }

/-- Embedding of `Scheduler.stop`: a no-op (with a warning) when not active;
otherwise clear `active`, cancel and await the scheduler loop task, then
cancel every tracked in-flight execution (without awaiting them), each of
which runs only its `finally` clause. -/
def stopScheduler (st : SchedState) : SchedState :=
  if st.active = false then st
  else
    let st1 := { st with active := false }
    st.runningTasks.foldl cancelRunning st1

/-- One `key=value` keyword argument to `Scheduler.update_task`.  The
loop `for key, value in kwargs.items(): if hasattr(task, key):
setattr(task, key, value)` accepts any attribute of `Task` — including
`id` — and silently ignores unknown keys (`other`). -/
inductive FieldUpdate where
  | set_id (v : String)
  | set_name (v : String)
  | set_schedule (v : String)
  | set_type (v : TaskType)
  | set_command (v : Option String)
  | set_api_url (v : Option String)
  | set_api_method (v : Option String)
  | set_api_headers (v : Option (List (String × String)))
  | set_api_body (v : Option String)
  | set_prompt (v : Option String)
  | set_description (v : Option String)
  | set_enabled (v : Bool)
  | set_do_only_once (v : Bool)
  | set_last_run (v : Option Nat)
  | set_next_run (v : Option Nat)
  | set_status (v : TaskStatus)
  | set_created_at (v : Nat)
  | set_updated_at (v : Nat)
  | set_reminder_title (v : Option String)
  | set_reminder_message (v : Option String)
  | other (key : String)
deriving DecidableEq, Repr

/-- Embedding of `setattr(task, key, value)` for one keyword argument (a key that is
not a `Task` attribute is ignored). -/
def applyUpdate (task : Task) : FieldUpdate → Task
  | .set_id v => { task with id := v }
  | .set_name v => { task with name := v }
  | .set_schedule v => { task with schedule := v }
  | .set_type v => { task with type := v }
  | .set_command v => { task with command := v }
  | .set_api_url v => { task with api_url := v }
  | .set_api_method v => { task with api_method := v }
  | .set_api_headers v => { task with api_headers := v }
  | .set_api_body v => { task with api_body := v }
  | .set_prompt v => { task with prompt := v }
  | .set_description v => { task with description := v }
  | .set_enabled v => { task with enabled := v }
  | .set_do_only_once v => { task with do_only_once := v }
  | .set_last_run v => { task with last_run := v }
  | .set_next_run v => { task with next_run := v }
  | .set_status v => { task with status := v }
  | .set_created_at v => { task with created_at := v }
  | .set_updated_at v => { task with updated_at := v }
  | .set_reminder_title v => { task with reminder_title := v }
  | .set_reminder_message v => { task with reminder_message := v }
  | .other _ => task

/-- Is this keyword argument the `schedule` key (the
`"schedule" in kwargs` test)? -/
def FieldUpdate.isSchedule : FieldUpdate → Bool
  | .set_schedule _ => true
  | _ => false

/-- The names of the fields of `Task`, for stating frame conditions. -/
inductive FieldKey where
  | fid | fname | fschedule | ftype | fcommand | fapi_url | fapi_method
  | fapi_headers | fapi_body | fprompt | fdescription | fenabled
  | fdo_only_once | flast_run | fnext_run | fstatus | fcreated_at
  | fupdated_at | freminder_title | freminder_message
deriving DecidableEq, Repr

/-- The field a keyword argument writes to, if any. -/
def FieldUpdate.key : FieldUpdate → Option FieldKey
  | .set_id _ => some FieldKey.fid
  | .set_name _ => some FieldKey.fname
  | .set_schedule _ => some FieldKey.fschedule
  | .set_type _ => some FieldKey.ftype
  | .set_command _ => some FieldKey.fcommand
  | .set_api_url _ => some FieldKey.fapi_url
  | .set_api_method _ => some FieldKey.fapi_method
  | .set_api_headers _ => some FieldKey.fapi_headers
  | .set_api_body _ => some FieldKey.fapi_body
  | .set_prompt _ => some FieldKey.fprompt
  | .set_description _ => some FieldKey.fdescription
  | .set_enabled _ => some FieldKey.fenabled
  | .set_do_only_once _ => some FieldKey.fdo_only_once
  | .set_last_run _ => some FieldKey.flast_run
  | .set_next_run _ => some FieldKey.fnext_run
  | .set_status _ => some FieldKey.fstatus
  | .set_created_at _ => some FieldKey.fcreated_at
  | .set_updated_at _ => some FieldKey.fupdated_at
  | .set_reminder_title _ => some FieldKey.freminder_title
  | .set_reminder_message _ => some FieldKey.freminder_message
  | .other _ => none

/-- Two tasks agree on the field named by `k`. -/
def Task.fieldEq (k : FieldKey) (a b : Task) : Prop :=
  match k with
  | .fid => a.id = b.id
  | .fname => a.name = b.name
  | .fschedule => a.schedule = b.schedule
  | .ftype => a.type = b.type
  | .fcommand => a.command = b.command
  | .fapi_url => a.api_url = b.api_url
  | .fapi_method => a.api_method = b.api_method
  | .fapi_headers => a.api_headers = b.api_headers
  | .fapi_body => a.api_body = b.api_body
  | .fprompt => a.prompt = b.prompt
  | .fdescription => a.description = b.description
  | .fenabled => a.enabled = b.enabled
  | .fdo_only_once => a.do_only_once = b.do_only_once
  | .flast_run => a.last_run = b.last_run
  | .fnext_run => a.next_run = b.next_run
  | .fstatus => a.status = b.status
  | .fcreated_at => a.created_at = b.created_at
  | .fupdated_at => a.updated_at = b.updated_at
  | .freminder_title => a.reminder_title = b.reminder_title
  | .freminder_message => a.reminder_message = b.reminder_message

/-- Embedding of `Scheduler.update_task` from `scheduler.py`: `None` result for an
unknown id; apply each keyword argument in order; if `schedule` was
among them, recompute `next_run` (an invalid expression raises
`ValueError`, leaving the store untouched since `get_task` returned a
fresh object); always set `updated_at = utcnow()`; persist. -/
def updateTask (st : SchedState) (taskId : String) (kwargs : List FieldUpdate)
    (now : Nat) : Except String (Option Task) × SchedState :=
  match getTask st.tasks taskId with
  | none => (Except.ok none, st)
  | some task =>
    let task1 := kwargs.foldl applyUpdate task
    if kwargs.any FieldUpdate.isSchedule then
      match nextTrigger task1.schedule now with
      | .error e => (Except.error ("Invalid cron expression: " ++ e), st)
      | .ok nr =>
        let task2 := { task1 with next_run := some nr, updated_at := now }
        (Except.ok (some task2), { st with tasks := saveTask st.tasks task2 })
    else
      let task2 := { task1 with updated_at := now }
      (Except.ok (some task2), { st with tasks := saveTask st.tasks task2 })

/-! Concrete fixtures used to exercise the definitions on explicit
inputs. -/

/-- Oracle outcomes for one executor run. -/
def sampleEnv : ExecEnv :=
  { shellResult := CallResult.ret (some "hi") none
    apiResult := CallResult.ret none none
    aiResult := CallResult.raised "boom"
    reminderResult := CallResult.ret (some "ok") none }

/-- A recurring shell task due at minute 0. -/
def taskA : Task :=
  { id := "task_a"
    name := "demo"
    schedule := "* * * * *"
    type := TaskType.shell_command
    command := some "echo hi"
    api_url := none
    api_method := none
    api_headers := none
    api_body := none
    prompt := none
    description := none
    enabled := true
    do_only_once := false
    last_run := none
    next_run := some 0
    status := TaskStatus.pending
    created_at := 0
    updated_at := 0
    reminder_title := none
    reminder_message := none }

/-- A one-shot variant of `taskA`. -/
def taskB : Task :=
  { taskA with id := "task_b", do_only_once := true }

/-- A task currently marked running. -/
def taskR : Task :=
  { taskA with id := "task_r", status := TaskStatus.running, last_run := some 0 }

/-- A task whose schedule string is not a cron expression. -/
def taskBad : Task :=
  { taskA with id := "task_x", schedule := "every five minutes or so" }

/-- A state holding just the due task `taskA`, nothing in flight. -/
def stateA : SchedState :=
  { tasks := [taskA], executions := [], runningTasks := [], active := true }

/-- A state holding `taskB` (one-shot), nothing in flight. -/
def stateB : SchedState :=
  { tasks := [taskB], executions := [], runningTasks := [], active := true }

/-- A state with `taskR` in flight while the scheduler is active. -/
def stateR : SchedState :=
  { tasks := [taskR], executions := [], runningTasks := ["task_r"], active := true }

/-- A completed execution record for `taskB`. -/
def execCompleted : TaskExecution :=
  { id := "exec_1", task_id := "task_b", start_time := 0, end_time := some 1
    status := TaskStatus.completed, output := some "hi", error := none }

/-- A failed execution record for `taskB`. -/
def execFailed : TaskExecution :=
  { execCompleted with
    id := "exec_2"
    status := TaskStatus.failed
    output := none
    error := some "Command failed with exit code 1: oops" }

/-- What `taskB` becomes after a successful one-shot run. -/
def taskBDisabled : Task :=
  { taskB with enabled := false, status := TaskStatus.disabled }

/-- What `taskB` becomes after a failed one-shot run at minute 0. -/
def taskBRetry : Task :=
  { taskB with next_run := some 1, status := TaskStatus.failed }

/-- What `taskA` becomes after an update of its name at minute 9. -/
def taskARenamed : Task :=
  { taskA with name := "renamed", updated_at := 9 }

/-! ## Helper lemmas -/

theorem findNext_gt {c : CronExpr} : ∀ {fuel t ts : Nat},
    findNext c fuel t = some ts → t < ts := by
  intro fuel
  induction fuel with
  | zero => intro t ts h; simp [findNext] at h
  | succ n ih =>
    intro t ts h
    rw [findNext] at h
    by_cases hc : cronMatches c (t + 1)
    · rw [if_pos hc] at h
      injection h with h
      omega
    · rw [if_neg hc] at h
      have := ih h
      omega

theorem nextTrigger_gt {schedule : String} {t ts : Nat}
    (h : nextTrigger schedule t = Except.ok ts) : t < ts := by
  unfold nextTrigger at h
  split at h
  · exact Except.noConfusion h
  · split at h
    · exact Except.noConfusion h
    · rename_i ts2 hf
      injection h with h
      exact h ▸ findNext_gt hf

theorem nextTrigger_parse_fail {schedule : String} (t : Nat)
    (h : parseCron schedule = none) :
    nextTrigger schedule t = Except.error ("bad cron: " ++ schedule) := by
  unfold nextTrigger
  rw [h]

theorem find?_map_replace (ts : List Task) (t : Task)
    (h : ts.any (fun u => u.id = t.id) = true) :
    (ts.map (fun u => if u.id = t.id then t else u)).find?
      (fun u => u.id = t.id) = some t := by
  induction ts with
  | nil => simp at h
  | cons u rest ih =>
    by_cases hu : u.id = t.id
    · simp only [List.map_cons, if_pos hu]
      exact List.find?_cons_of_pos _ (by simp)
    · simp only [List.any_cons, hu] at h
      simp only [List.map_cons, if_neg hu]
      rw [List.find?_cons_of_neg _ (by simp [hu])]
      exact ih (by simpa using h)

theorem find?_append_self (ts : List Task) (t : Task)
    (h : ts.any (fun u => u.id = t.id) = false) :
    (ts ++ [t]).find? (fun u => u.id = t.id) = some t := by
  induction ts with
  | nil => simp
  | cons u rest ih =>
    simp only [List.any_cons, Bool.or_eq_false_iff] at h
    simp only [List.cons_append]
    rw [List.find?_cons_of_neg _ (by simp_all)]
    exact ih h.2

theorem getTask_saveTask_self (ts : List Task) (t : Task) :
    getTask (saveTask ts t) t.id = some t := by
  unfold saveTask getTask
  by_cases h : ts.any (fun u => u.id = t.id)
  · rw [if_pos h]
    exact find?_map_replace ts t h
  · rw [if_neg h]
    exact find?_append_self ts t (by simpa using h)

theorem saveTask_mem_id (ts : List Task) (t : Task) (i : String)
    (h : ∃ u ∈ ts, u.id = i) : ∃ u ∈ saveTask ts t, u.id = i := by
  obtain ⟨u, hu, hui⟩ := h
  unfold saveTask
  by_cases hany : ts.any (fun v => v.id = t.id)
  · rw [if_pos hany]
    refine ⟨if u.id = t.id then t else u, List.mem_map_of_mem _ hu, ?_⟩
    by_cases huid : u.id = t.id
    · rw [if_pos huid, ← huid]
      exact hui
    · rw [if_neg huid]
      exact hui
  · rw [if_neg hany]
    exact ⟨u, List.mem_append_left _ hu, hui⟩

theorem checkTasksStep_spec (now : Nat) (acc : SchedState × List Task) (task : Task) :
    (∀ i ∈ acc.1.runningTasks, i ∈ (checkTasksStep now acc task).1.runningTasks) ∧
    (∀ t ∈ (checkTasksStep now acc task).2,
        t ∈ acc.2 ∨ (t.enabled = true ∧ t.id ∉ acc.1.runningTasks)) := by
  unfold checkTasksStep
  by_cases he : task.enabled = false
  · simp only [if_pos he]
    exact ⟨fun i hi => hi, fun t ht => Or.inl ht⟩
  · simp only [if_neg he]
    by_cases hr : task.id ∈ acc.1.runningTasks
    · simp only [if_pos hr]
      exact ⟨fun i hi => hi, fun t ht => Or.inl ht⟩
    · simp only [if_neg hr]
      have henabled : task.enabled = true := by
        cases hE : task.enabled
        · exact absurd hE he
        · rfl
      cases hnr : task.next_run with
      | some nr0 =>
        dsimp only
        rw [hnr]
        dsimp only
        by_cases hd : nr0 ≤ now
        · simp only [if_pos hd]
          refine ⟨fun i hi => List.mem_append_left _ hi, fun t ht => ?_⟩
          rcases List.mem_append.mp ht with h | h
          · exact Or.inl h
          · rw [List.mem_singleton.mp h]
            exact Or.inr ⟨henabled, hr⟩
        · simp only [if_neg hd]
          exact ⟨fun i hi => hi, fun t ht => Or.inl ht⟩
      | none =>
        cases hct : nextTrigger task.schedule now with
        | error e =>
          dsimp only
          exact ⟨fun i hi => hi, fun t ht => Or.inl ht⟩
        | ok nr =>
          dsimp only
          by_cases hd : nr ≤ now
          · simp only [if_pos hd]
            refine ⟨fun i hi => List.mem_append_left _ hi, fun t ht => ?_⟩
            rcases List.mem_append.mp ht with h | h
            · exact Or.inl h
            · rw [List.mem_singleton.mp h]
              exact Or.inr ⟨henabled, hr⟩
          · simp only [if_neg hd]
            exact ⟨fun i hi => hi, fun t ht => Or.inl ht⟩

theorem checkTasks_dispatch (st : SchedState) (now : Nat) :
    ∀ t ∈ (checkTasks st now).2, t.enabled = true ∧ t.id ∉ st.runningTasks := by
  unfold checkTasks
  suffices h : ∀ (l : List Task) (acc : SchedState × List Task),
      (∀ t ∈ acc.2, t.enabled = true ∧ t.id ∉ st.runningTasks) →
      (∀ i ∈ st.runningTasks, i ∈ acc.1.runningTasks) →
      ∀ t ∈ (l.foldl (checkTasksStep now) acc).2,
        t.enabled = true ∧ t.id ∉ st.runningTasks by
    exact h st.tasks (st, []) (by simp) (fun i hi => hi)
  intro l
  induction l with
  | nil => exact fun acc h1 _ t ht => h1 t ht
  | cons a rest ih =>
    intro acc h1 h2
    simp only [List.foldl_cons]
    obtain ⟨hrun, hdisp⟩ := checkTasksStep_spec now acc a
    apply ih
    · intro t ht
      rcases hdisp t ht with h | h
      · exact h1 t h
      · exact ⟨h.1, fun hmem => h.2 (h2 _ hmem)⟩
    · exact fun i hi => hrun i (h2 i hi)

theorem foldl_cancelRunning_frame (l : List String) : ∀ s : SchedState,
    (l.foldl cancelRunning s).tasks = s.tasks ∧
    (l.foldl cancelRunning s).executions = s.executions ∧
    (l.foldl cancelRunning s).active = s.active := by
  induction l with
  | nil => exact fun s => ⟨rfl, rfl, rfl⟩
  | cons a rest ih =>
    intro s
    simp only [List.foldl_cons]
    simpa [cancelRunning] using ih (cancelRunning s a)

theorem foldl_cancelRunning_empty (l : List String) : ∀ s : SchedState,
    (∀ i ∈ s.runningTasks, i ∈ l) → (l.foldl cancelRunning s).runningTasks = [] := by
  induction l with
  | nil =>
    intro s h
    simp only [List.foldl_nil]
    exact List.eq_nil_iff_forall_not_mem.mpr fun i hi => List.not_mem_nil i (h i hi)
  | cons a rest ih =>
    intro s h
    simp only [List.foldl_cons]
    apply ih
    intro i hi
    simp only [cancelRunning, List.mem_filter, decide_eq_true_eq] at hi
    rcases List.mem_cons.mp (h i hi.1) with h1 | h1
    · exact absurd h1 hi.2
    · exact h1

/-- C6 (amended): when the scheduler is active, `stop()` awaits the poll
loop's exit and cancels every tracked in-flight execution, emptying the
in-flight set; but it does not await or finalize the cancelled
executions — the store (tasks and execution log) is untouched, so a task
already marked `running` keeps `status=running`. -/
theorem stop_cancels_inflight_without_finalizing (st : SchedState) (h : st.active = true) :
    (stopScheduler st).active = false ∧
    (stopScheduler st).runningTasks = [] ∧
    (stopScheduler st).tasks = st.tasks ∧
    (stopScheduler st).executions = st.executions := by
  unfold stopScheduler
  rw [h]
  simp only [Bool.true_eq_false, if_false]
  obtain ⟨ht, hex, hact⟩ :=
    foldl_cancelRunning_frame st.runningTasks { st with active := false }
  refine ⟨by rw [hact], ?_, by rw [ht], by rw [hex]⟩
  exact foldl_cancelRunning_empty _ _ (fun i hi => hi)

theorem fieldEq_trans {k : FieldKey} {a b c : Task}
    (h1 : Task.fieldEq k a b) (h2 : Task.fieldEq k b c) : Task.fieldEq k a c := by
  cases k <;>
    (simp only [Task.fieldEq] at h1 h2 ⊢; exact h1.trans h2)

theorem applyUpdate_fieldEq (t : Task) (u : FieldUpdate) (k : FieldKey)
    (h : u.key ≠ some k) : Task.fieldEq k t (applyUpdate t u) := by
  cases u <;> cases k <;> first
    | rfl
    | exact absurd rfl h

theorem foldl_applyUpdate_fieldEq (kwargs : List FieldUpdate) :
    ∀ (t : Task) (k : FieldKey), (∀ u ∈ kwargs, u.key ≠ some k) →
      Task.fieldEq k t (kwargs.foldl applyUpdate t) := by
  induction kwargs with
  | nil =>
    intro t k _
    cases k <;> rfl
  | cons u rest ih =>
    intro t k h
    simp only [List.foldl_cons]
    exact fieldEq_trans
      (applyUpdate_fieldEq t u k (h u (List.mem_cons_self u rest)))
      (ih (applyUpdate t u) k (fun v hv => h v (List.mem_cons_of_mem u hv)))

/-! ## Claim theorems -/

/-- C10: a task constructed without an explicit `do_only_once` value gets
the declared pydantic default `do_only_once=True` — by default every
newly created task is a one-shot task that auto-disables after its first
successful run. -/
theorem task_default_do_only_once (freshId name schedule : String) (ty : TaskType)
    (command api_url api_method : Option String)
    (api_headers : Option (List (String × String))) (api_body : Option String)
    (prompt description reminder_title reminder_message : Option String) (now : Nat) :
    (Task.make freshId name schedule ty command api_url api_method api_headers
      api_body prompt description reminder_title reminder_message now).do_only_once
      = true := rfl

theorem applyCallResult_spec (e : TaskExecution) (r : CallResult) :
    ((applyCallResult e r).status = TaskStatus.failed →
      (applyCallResult e r).error ≠ none) ∧
    ((applyCallResult e r).status = TaskStatus.completed ∨
      (applyCallResult e r).status = TaskStatus.failed) := by
  cases r with
  | raised msg => exact ⟨fun _ => by simp [applyCallResult], Or.inr rfl⟩
  | ret out err =>
    by_cases hE : errTruthy err
    · refine ⟨fun _ => ?_, Or.inr (by simp [applyCallResult, hE])⟩
      simp only [applyCallResult, if_pos hE]
      cases err with
      | none => simp [errTruthy] at hE
      | some s => simp
    · exact ⟨fun hs => by simp [applyCallResult, hE] at hs,
        Or.inl (by simp [applyCallResult, hE])⟩

/-- C2: for every task type value (including unrecognized ones) and every
outcome of the awaited helpers (including a raised exception),
`Executor.execute_task` returns (never raises — it is a total function of
its oracle inputs): `end_time` is set exactly once, to the final
`utcnow`; a failure always carries a non-null `error`; and the final
status is either `completed` or `failed`. -/
theorem executor_never_raises (typeValue : String) (env : ExecEnv)
    (freshId taskId : String) (startNow endNow : Nat) :
    ((executeTaskCore typeValue env freshId taskId startNow endNow).end_time
      = some endNow) ∧
    ((executeTaskCore typeValue env freshId taskId startNow endNow).status
        = TaskStatus.failed →
      (executeTaskCore typeValue env freshId taskId startNow endNow).error ≠ none) ∧
    ((executeTaskCore typeValue env freshId taskId startNow endNow).status
        = TaskStatus.completed ∨
      (executeTaskCore typeValue env freshId taskId startNow endNow).status
        = TaskStatus.failed) := by
  unfold executeTaskCore
  dsimp only
  refine ⟨rfl, ?_, ?_⟩
  · repeat' split
    any_goals exact (applyCallResult_spec _ _).1
    intro _
    simp
  · repeat' split
    any_goals exact (applyCallResult_spec _ _).2
    exact Or.inr rfl

theorem executor_never_raises_witness :
    ((executeTaskCore "bogus_type" sampleEnv "exec_9" "task_a" 3 4).end_time
      = some 4) ∧
    ((executeTaskCore "bogus_type" sampleEnv "exec_9" "task_a" 3 4).error ≠ none) := by
  have h := executor_never_raises "bogus_type" sampleEnv "exec_9" "task_a" 3 4
  exact ⟨h.1, h.2.1 (by decide)⟩

/-- C5: for every schedule string that cannot be parsed as a cron
expression, `add_task` raises the invalid-schedule error
(`ValueError("Invalid cron expression: ...")` in the source, the spec's
`InvalidScheduleError`) and the store is unchanged — no task is
persisted. -/
theorem add_task_invalid_schedule (st : SchedState) (task : Task) (now : Nat)
    (h : parseCron task.schedule = none) :
    addTask st task now =
      (Except.error ("Invalid cron expression: " ++ ("bad cron: " ++ task.schedule)),
       st) := by
  unfold addTask
  rw [nextTrigger_parse_fail now h]

theorem add_task_invalid_schedule_witness :
    addTask stateA taskBad 0 =
      (Except.error ("Invalid cron expression: " ++ ("bad cron: " ++ taskBad.schedule)),
       stateA) :=
  add_task_invalid_schedule stateA taskBad 0 (by decide)

/-- C7 (spec-modelled, since the cron resolution lives in the external
`croniter` package): for every schedule and reference time, a successful
`next_trigger` returns a timestamp strictly after the reference time, and
an unparsable expression makes it fail with an error instead of
returning a time. -/
theorem next_trigger_strictly_future (schedule : String) (t ts : Nat) :
    (nextTrigger schedule t = Except.ok ts → t < ts) ∧
    (parseCron schedule = none →
      nextTrigger schedule t = Except.error ("bad cron: " ++ schedule)) :=
  ⟨fun h => nextTrigger_gt h, fun h => nextTrigger_parse_fail t h⟩

theorem next_trigger_strictly_future_witness :
    (0 : Nat) < 1 ∧
    nextTrigger "every five minutes or so" 0 =
      Except.error ("bad cron: " ++ "every five minutes or so") :=
  ⟨(next_trigger_strictly_future "* * * * *" 0 1).1 (by rfl),
   (next_trigger_strictly_future "every five minutes or so" 0 0).2 (by decide)⟩

/-- C3: for every task with `do_only_once=true` whose execution completed
successfully, the completion bookkeeping stores it with `enabled=false`
and `status=disabled`, and that stored task is never dispatched by any
subsequent poll cycle (a poll cycle only dispatches enabled tasks). -/
theorem one_shot_success_disabled (st : SchedState) (task : Task)
    (execution : TaskExecution) (now : Nat) (errExecId : String)
    (h1 : task.do_only_once = true) (h2 : execution.status = TaskStatus.completed) :
    getTask (executeTaskFinish st task execution now errExecId).tasks task.id =
      some { task with enabled := false, status := TaskStatus.disabled } ∧
    ({ task with enabled := false, status := TaskStatus.disabled } : Task).enabled
      = false ∧
    ({ task with enabled := false, status := TaskStatus.disabled } : Task).status
      = TaskStatus.disabled ∧
    ∀ (st2 : SchedState) (now2 : Nat),
      ({ task with enabled := false, status := TaskStatus.disabled } : Task)
        ∉ (checkTasks st2 now2).2 := by
  have hcond : task.do_only_once = true ∧ execution.status = TaskStatus.completed :=
    ⟨h1, h2⟩
  unfold executeTaskFinish
  dsimp only
  rw [if_pos hcond]
  dsimp only
  refine ⟨getTask_saveTask_self _ _, rfl, rfl, ?_⟩
  intro st2 now2 hmem
  have h := (checkTasks_dispatch st2 now2 _ hmem).1
  simp at h

theorem one_shot_success_disabled_witness :
    getTask (executeTaskFinish stateB taskB execCompleted 1 "exec_e").tasks "task_b"
      = some taskBDisabled ∧
    taskBDisabled.enabled = false ∧
    taskBDisabled ∉ (checkTasks stateA 5).2 := by
  have h := one_shot_success_disabled stateB taskB execCompleted 1 "exec_e" rfl rfl
  exact ⟨h.1, h.2.1, h.2.2.2 stateA 5⟩

/-- C4: for every task with `do_only_once=true` whose execution failed,
the completion bookkeeping leaves it enabled and advances `next_run` to
the next occurrence of its schedule computed relative to the completion
time `now` (which is strictly greater than `now`, hence not a replay of
the original `next_run`). -/
theorem one_shot_failure_retries (st : SchedState) (task : Task)
    (execution : TaskExecution) (now : Nat) (errExecId : String) (nr : Nat)
    (h1 : task.do_only_once = true) (h2 : execution.status = TaskStatus.failed)
    (h3 : task.enabled = true) (h4 : nextTrigger task.schedule now = Except.ok nr) :
    getTask (executeTaskFinish st task execution now errExecId).tasks task.id =
      some { task with next_run := some nr, status := execution.status } ∧
    ({ task with next_run := some nr, status := execution.status } : Task).enabled
      = true ∧
    ({ task with next_run := some nr, status := execution.status } : Task).next_run
      = some nr ∧
    now < nr := by
  have hcond : ¬(task.do_only_once = true ∧ execution.status = TaskStatus.completed) := by
    intro hc
    rw [h2] at hc
    exact TaskStatus.noConfusion hc.2
  unfold executeTaskFinish
  dsimp only
  rw [if_neg hcond, h4]
  dsimp only
  exact ⟨getTask_saveTask_self _ _, h3, rfl, nextTrigger_gt h4⟩

theorem one_shot_failure_retries_witness :
    getTask (executeTaskFinish stateB taskB execFailed 0 "exec_e").tasks "task_b"
      = some taskBRetry ∧
    taskBRetry.enabled = true ∧ (0 : Nat) < 1 := by
  have h := one_shot_failure_retries stateB taskB execFailed 0 "exec_e" 1 rfl rfl rfl (by rfl)
  exact ⟨h.1, h.2.1, h.2.2.2⟩

theorem stop_cancels_inflight_without_finalizing_witness :
    (stopScheduler stateR).active = false ∧
    (stopScheduler stateR).runningTasks = [] ∧
    (stopScheduler stateR).tasks = stateR.tasks ∧
    (stopScheduler stateR).executions = stateR.executions :=
  stop_cancels_inflight_without_finalizing stateR rfl

/-- C6 (counterexample): concrete refutation of the claim that after
`stop()` no execution is left in the running state.  In `stateR` the task
`task_r` is stored with `status=running` while its execution is
in-flight; after `stop()` the scheduler is inactive and the in-flight set
is empty (so nothing will ever finalize the task), yet the stored task
still has `status=running`: `stop()` called `cancel()` on the execution
without awaiting it, and `asyncio.CancelledError`, not being an
`Exception`, skips the failure bookkeeping of `_execute_task`. -/
theorem stop_leaves_task_running :
    (stopScheduler stateR).active = false ∧
    (stopScheduler stateR).runningTasks = [] ∧
    getTask (stopScheduler stateR).tasks "task_r" = some taskR ∧
    taskR.status = TaskStatus.running := by decide

/-- C8: `update_task` with an unknown task id returns a null result and
leaves the store alone.  For an existing task it sets the listed fields
(in order), always bumps `updated_at` to the call time, recomputes
`next_run` exactly when `schedule` is among the listed fields, and — the
frame part — any field not listed is unchanged by the field
application. -/
theorem update_task_applies_fields (st : SchedState) (taskId : String)
    (kwargs : List FieldUpdate) (now : Nat) :
    (getTask st.tasks taskId = none →
      updateTask st taskId kwargs now = (Except.ok none, st)) ∧
    (∀ task, getTask st.tasks taskId = some task →
      (kwargs.any FieldUpdate.isSchedule = false →
        updateTask st taskId kwargs now =
          (Except.ok (some { kwargs.foldl applyUpdate task with updated_at := now }),
           { st with tasks := saveTask st.tasks ({ kwargs.foldl applyUpdate task with updated_at := now }) })) ∧
      (∀ nr, kwargs.any FieldUpdate.isSchedule = true →
        nextTrigger (kwargs.foldl applyUpdate task).schedule now = Except.ok nr →
        updateTask st taskId kwargs now =
          (Except.ok (some { kwargs.foldl applyUpdate task with
              next_run := some nr, updated_at := now }),
           { st with tasks := saveTask st.tasks ({ kwargs.foldl applyUpdate task with next_run := some nr, updated_at := now }) })) ∧
      (∀ k : FieldKey, (∀ u ∈ kwargs, u.key ≠ some k) →
        Task.fieldEq k task (kwargs.foldl applyUpdate task))) := by
  constructor
  · intro h
    unfold updateTask
    rw [h]
  · intro task htask
    refine ⟨?_, ?_, ?_⟩
    · intro hsched
      unfold updateTask
      rw [htask]
      dsimp only
      rw [if_neg (by rw [hsched]; exact Bool.false_ne_true)]
    · intro nr hsched hnt
      unfold updateTask
      rw [htask]
      dsimp only
      rw [if_pos hsched, hnt]
    · intro k hk
      exact foldl_applyUpdate_fieldEq kwargs task k hk

theorem update_task_applies_fields_witness :
    updateTask stateA "task_a" [FieldUpdate.set_name "renamed"] 9 =
      (Except.ok (some taskARenamed),
       { stateA with tasks := saveTask stateA.tasks taskARenamed }) ∧
    Task.fieldEq FieldKey.fschedule taskA
      ([FieldUpdate.set_name "renamed"].foldl applyUpdate taskA) ∧
    updateTask stateA "task_zzz" [FieldUpdate.set_name "renamed"] 9 =
      (Except.ok none, stateA) := by
  have h := (update_task_applies_fields stateA "task_a"
    [FieldUpdate.set_name "renamed"] 9).2 taskA (by decide)
  refine ⟨h.1 rfl, h.2.2 FieldKey.fschedule (by decide), ?_⟩
  exact (update_task_applies_fields stateA "task_zzz"
    [FieldUpdate.set_name "renamed"] 9).1 (by decide)

/-- C9: no stored task's id is ever changed: every id present in the
store is still present after `update_task` (with an arbitrary field set,
even one containing `id` — `save_task` upserts by the new id, leaving the
row under the old id untouched), after `add_task`, and after the
dispatch half of `run_task_now`. -/
theorem task_id_immutable (st : SchedState) (taskId : String)
    (kwargs : List FieldUpdate) (now : Nat) (task : Task) (i : String) :
    ((∃ u ∈ st.tasks, u.id = i) →
      ∃ u ∈ ((updateTask st taskId kwargs now).2).tasks, u.id = i) ∧
    ((∃ u ∈ st.tasks, u.id = i) →
      ∃ u ∈ ((addTask st task now).2).tasks, u.id = i) ∧
    ((∃ u ∈ st.tasks, u.id = i) →
      ∃ u ∈ ((runTaskNowBegin st taskId now).2).tasks, u.id = i) := by
  refine ⟨?_, ?_, ?_⟩
  · intro h
    unfold updateTask
    cases hg : getTask st.tasks taskId with
    | none => exact h
    | some task0 =>
      dsimp only
      by_cases hs : kwargs.any FieldUpdate.isSchedule
      · rw [if_pos hs]
        cases hnt : nextTrigger (kwargs.foldl applyUpdate task0).schedule now with
        | error e => exact h
        | ok nr => exact saveTask_mem_id st.tasks _ i h
      · rw [if_neg hs]
        exact saveTask_mem_id st.tasks _ i h
  · intro h
    unfold addTask
    cases hnt : nextTrigger task.schedule now with
    | error e => exact h
    | ok nr => exact saveTask_mem_id st.tasks _ i h
  · intro h
    unfold runTaskNowBegin
    cases hg : getTask st.tasks taskId with
    | none => exact h
    | some task0 =>
      dsimp only
      by_cases hr : taskId ∈ st.runningTasks
      · rw [if_pos hr]
        exact h
      · rw [if_neg hr]
        exact saveTask_mem_id st.tasks _ i h

theorem task_id_immutable_witness :
    (∃ u ∈ ((updateTask stateA "task_a" [FieldUpdate.set_id "task_zzz"] 3).2).tasks,
      u.id = "task_a") ∧
    (∃ u ∈ ((addTask stateA taskB 0).2).tasks, u.id = "task_a") := by
  have hpre : ∃ u ∈ stateA.tasks, u.id = "task_a" :=
    ⟨taskA, by simp [stateA], rfl⟩
  exact ⟨(task_id_immutable stateA "task_a" [FieldUpdate.set_id "task_zzz"] 3 taskB
      "task_a").1 hpre,
    (task_id_immutable stateA "task_a" [] 0 taskB "task_a").2.1 hpre⟩

/-- C1 (evaluation at the failing input): the claimed mutual exclusion of
manual and automatic dispatch does not hold.  `run_task_now` checks
`_running_tasks` but never inserts into it, so while a manual run of
`task_a` is awaiting the executor (`runTaskNowBegin` returned a task),
the id is still absent from the in-flight set and the next poll cycle
dispatches the very same task id — two executions of `task_a` are then
in flight. -/
theorem run_now_poll_overlap :
    ((runTaskNowBegin stateA "task_a" 0).1.isSome = true) ∧
    ("task_a" ∉ (runTaskNowBegin stateA "task_a" 0).2.runningTasks) ∧
    ((checkTasks (runTaskNowBegin stateA "task_a" 0).2 0).2.map Task.id
      = ["task_a"]) ∧
    ((checkTasks (runTaskNowBegin stateA "task_a" 0).2 0).1.runningTasks
      = ["task_a"]) := by decide

end McpScheduler
